import Mathlib

/-!
# Verification of the Perp_aggregator core against its specification

Shallow embedding of the repository's core data model and operations:

* `app/models/enums.py`, `app/models/unified.py` — canonical data model
  (`UnifiedOrder`, `Position`, `MarketData`).
* `app/orchestrator/portfolio_aggregator.py` — `PositionAggregator`
  (per-venue table, consolidation, removal) and the event handlers of
  `PortfolioAggregator`.
* `app/orchestrator/main_orchestrator.py` — `CircuitBreaker` and
  `MainOrchestrator.place_order` / `_publish_order_event`.
* `app/orchestrator/event_bus.py` — `EventBus` publish failure handling,
  circuit breaker, `subscribe` / `unsubscribe`.
* `app/websocket/manager.py`, `app/models/market_data.py` —
  `WebSocketManager._calculate_aggregated_price` over `PriceData`.

Conventions of the embedding:

* Python `Decimal` values are embedded as `ℚ` (exact arithmetic, as the
  spec requires for monetary quantities).
* `datetime` values are embedded as integers (`ℕ` for monotone clocks
  stored in records, `ℤ` where the code takes differences in seconds);
  `datetime.utcnow()` becomes an explicit `now` argument.
* Python `dict`s are embedded as association lists in insertion order,
  which is exactly the iteration order of a CPython dict.  `dictSet`
  replaces the value of an existing key in place (keeping its slot) and
  appends a fresh key at the end; `dictDel` removes the key.
* A Python function that can raise is embedded with `Option`/`Except`;
  `none`/`error` is the raising path.
* Purely informational fields that no claim touches (logging, uuid
  strings, `venue_data` dictionaries, metric counters) are omitted and
  noted at each structure.
-/

/-! ## Association-list model of Python dicts -/

/-- Lookup in a dict: first binding of the key (CPython keys are unique,
and all our operations keep them unique). -/
def dictGet? {K V : Type} [DecidableEq K] : List (K × V) → K → Option V
  | [], _ => none
  | (k', v') :: rest, k => if k' = k then some v' else dictGet? rest k

/-- `d.get(k, default)`. -/
def dictGetD {K V : Type} [DecidableEq K] (d : List (K × V)) (k : K) (v₀ : V) : V :=
  (dictGet? d k).getD v₀

/-- `d[k] = v`: replace in place if the key exists, else append at the end
(CPython insertion order). -/
def dictSet {K V : Type} [DecidableEq K] : List (K × V) → K → V → List (K × V)
  | [], k, v => [(k, v)]
  | (k', v') :: rest, k, v =>
      if k' = k then (k', v) :: rest else (k', v') :: dictSet rest k v

/-- `del d[k]` (no-op when the key is absent, callers guard as the code does). -/
def dictDel {K V : Type} [DecidableEq K] (d : List (K × V)) (k : K) : List (K × V) :=
  d.filter (fun p => p.1 ≠ k)

/-- Membership test `k in d`. -/
def dictHas {K V : Type} [DecidableEq K] (d : List (K × V)) (k : K) : Bool :=
  (dictGet? d k).isSome

theorem dictGet?_set_self {K V : Type} [DecidableEq K]
    (d : List (K × V)) (k : K) (v : V) : dictGet? (dictSet d k v) k = some v := by
  induction d with
  | nil => simp [dictSet, dictGet?]
  | cons p rest ih =>
      obtain ⟨a, b⟩ := p
      by_cases h : a = k
      · subst h; simp [dictSet, dictGet?]
      · simp [dictSet, dictGet?, h, ih]

theorem dictGet?_set_other {K V : Type} [DecidableEq K]
    (d : List (K × V)) (k k' : K) (v : V) (hne : k' ≠ k) :
    dictGet? (dictSet d k v) k' = dictGet? d k' := by
  have hkk : k ≠ k' := Ne.symm hne
  induction d with
  | nil => simp [dictSet, dictGet?, hkk]
  | cons p rest ih =>
      obtain ⟨a, b⟩ := p
      by_cases h : a = k
      · subst h; simp [dictSet, dictGet?, hkk]
      · by_cases h2 : a = k' <;> simp [dictSet, dictGet?, h, h2, hne, hkk, ih]

theorem dictGet?_del_self {K V : Type} [DecidableEq K]
    (d : List (K × V)) (k : K) : dictGet? (dictDel d k) k = none := by
  induction d with
  | nil => simp [dictDel, dictGet?]
  | cons p rest ih =>
      obtain ⟨a, b⟩ := p
      by_cases h : a = k
      · simpa [dictDel, List.filter_cons, h] using ih
      · simpa [dictDel, List.filter_cons, h, dictGet?] using ih

theorem dictGet?_del_other {K V : Type} [DecidableEq K]
    (d : List (K × V)) (k k' : K) (hne : k' ≠ k) :
    dictGet? (dictDel d k) k' = dictGet? d k' := by
  have hkk : k ≠ k' := Ne.symm hne
  induction d with
  | nil => simp [dictDel, dictGet?]
  | cons p rest ih =>
      obtain ⟨a, b⟩ := p
      have ih' : dictGet? (List.filter (fun p => !decide (p.1 = k)) rest) k'
          = dictGet? rest k' := by simpa [dictDel] using ih
      by_cases h : a = k
      · have h2 : a ≠ k' := by intro hk; exact hne (hk ▸ h)
        simp [dictDel, List.filter_cons, h, dictGet?, h2, hkk, ih']
      · by_cases h2 : a = k' <;>
          simp [dictDel, List.filter_cons, h, dictGet?, h2, hne, hkk, ih']

theorem dictGet?_of_getD_ne {K V : Type} [DecidableEq K]
    (d : List (K × V)) (k : K) (v₀ : V) (h : dictGetD d k v₀ ≠ v₀) :
    dictGet? d k = some (dictGetD d k v₀) := by
  unfold dictGetD at *
  cases hd : dictGet? d k with
  | none => simp [hd] at h
  | some v => simp [hd]

/-- Every binding of `dictSet d k v` carries either the new value `v` or is
a binding of `d`. -/
theorem dictSet_values_sub {K V : Type} [DecidableEq K]
    (d : List (K × V)) (k : K) (v : V) (p : K × V) (hp : p ∈ dictSet d k v) :
    p.2 = v ∨ p ∈ d := by
  induction d with
  | nil =>
      simp [dictSet] at hp; simp [hp]
  | cons q rest ih =>
      obtain ⟨a, b⟩ := q
      by_cases h : a = k
      · subst h
        simp [dictSet] at hp
        rcases hp with hp | hp
        · left; simp [hp]
        · right; exact List.mem_cons_of_mem _ hp
      · simp [dictSet, h] at hp
        rcases hp with hp | hp
        · right; simp [hp]
        · rcases ih hp with h1 | h1
          · left; exact h1
          · right; exact List.mem_cons_of_mem _ h1

/-! ## First-wins argmax / argmin (CPython `max(...)` / `min(...)` with `key=`)

CPython's `max` keeps the current best and replaces it only on a strictly
greater key, so the *first* element attaining the maximum wins; dually for
`min`. -/

/-- `max(l, key=f)`: `none` on the empty list (Python raises `ValueError`). -/
def argmaxBy {α β : Type} [LinearOrder β] (f : α → β) : List α → Option α
  | [] => none
  | x :: xs => some (xs.foldl (fun best y => if f best < f y then y else best) x)

/-- `min(l, key=f)`: `none` on the empty list (Python raises `ValueError`). -/
def argminBy {α β : Type} [LinearOrder β] (f : α → β) : List α → Option α
  | [] => none
  | x :: xs => some (xs.foldl (fun best y => if f y < f best then y else best) x)

theorem argmaxBy_foldl_split {α β : Type} [LinearOrder β] (f : α → β) :
    ∀ (xs : List α) (b : α),
      ∃ l1 l2, b :: xs = l1 ++ (xs.foldl (fun best y => if f best < f y then y else best) b) :: l2
        ∧ (∀ x ∈ l1, f x < f (xs.foldl (fun best y => if f best < f y then y else best) b))
        ∧ (∀ x ∈ l2, f x ≤ f (xs.foldl (fun best y => if f best < f y then y else best) b)) := by
  intro xs
  induction xs with
  | nil =>
      intro b
      exact ⟨[], [], by simp⟩
  | cons x xs ih =>
      intro b
      by_cases h : f b < f x
      · obtain ⟨l1, l2, heq, h1, h2⟩ := ih x
        set w := xs.foldl (fun best y => if f best < f y then y else best) x with hw
        have hfold : (x :: xs).foldl (fun best y => if f best < f y then y else best) b = w := by
          simp [List.foldl_cons, h, hw]
        have hxw : f x ≤ f w := by
          cases l1 with
          | nil =>
              have : x = w := by
                have := heq; simp at this; exact this.1
              simp [this]
          | cons z t =>
              have hz : x = z ∧ xs = t ++ w :: l2 := by
                have := heq; simp at this; exact this
              have := h1 z (by simp)
              rw [← hz.1] at this
              exact le_of_lt this
        refine ⟨b :: l1, l2, ?_, ?_, ?_⟩
        · rw [hfold]
          simpa using congrArg (List.cons b) heq
        · intro y hy
          rw [hfold]
          rcases List.mem_cons.mp hy with rfl | hy
          · exact lt_of_lt_of_le h hxw
          · exact h1 y hy
        · intro y hy
          rw [hfold]
          exact h2 y hy
      · obtain ⟨l1, l2, heq, h1, h2⟩ := ih b
        set w := xs.foldl (fun best y => if f best < f y then y else best) b with hw
        have hfold : (x :: xs).foldl (fun best y => if f best < f y then y else best) b = w := by
          simp [List.foldl_cons, h, hw]
        have hxb : f x ≤ f b := not_lt.mp h
        cases l1 with
        | nil =>
            have hbw : b = w := by
              have := heq; simp at this; exact this.1
            have hxs : xs = l2 := by
              have := heq; simp at this; exact this.2
            refine ⟨[], x :: xs, ?_, by simp, ?_⟩
            · rw [hfold]; simp [← hbw]
            · intro y hy
              rw [hfold]
              rcases List.mem_cons.mp hy with rfl | hy
              · rw [← hbw]; exact hxb
              · exact h2 y (hxs ▸ hy)
        | cons z t =>
            have hz : b = z ∧ xs = t ++ w :: l2 := by
              have := heq; simp at this; exact this
            have hbw : f b < f w := by
              have := h1 z (by simp)
              rw [← hz.1] at this
              exact this
            refine ⟨b :: x :: t, l2, ?_, ?_, ?_⟩
            · rw [hfold]
              simp [hz.2]
            · intro y hy
              rw [hfold]
              rcases List.mem_cons.mp hy with rfl | hy
              · exact hbw
              rcases List.mem_cons.mp hy with rfl | hy
              · exact lt_of_le_of_lt hxb hbw
              · exact h1 y (by simp [hz.1, hy])
            · intro y hy
              rw [hfold]
              exact h2 y hy

/-- The element returned by `argmaxBy` splits the list into a strict prefix
(all strictly smaller keys) and a suffix (all keys `≤`): it is the first
element attaining the maximum. -/
theorem argmaxBy_split {α β : Type} [LinearOrder β] (f : α → β) (l : List α) (w : α)
    (hw : argmaxBy f l = some w) :
    ∃ l1 l2, l = l1 ++ w :: l2 ∧ (∀ x ∈ l1, f x < f w) ∧ (∀ x ∈ l2, f x ≤ f w) := by
  cases l with
  | nil => simp [argmaxBy] at hw
  | cons x xs =>
      obtain ⟨l1, l2, heq, h1, h2⟩ := argmaxBy_foldl_split f xs x
      have hww : xs.foldl (fun best y => if f best < f y then y else best) x = w := by
        simpa [argmaxBy] using hw
      exact ⟨l1, l2, by rw [← hww]; exact heq, by rw [← hww]; exact h1,
        by rw [← hww]; exact h2⟩

theorem argmaxBy_mem {α β : Type} [LinearOrder β] (f : α → β) (l : List α) (w : α)
    (hw : argmaxBy f l = some w) : w ∈ l := by
  obtain ⟨l1, l2, heq, -, -⟩ := argmaxBy_split f l w hw
  rw [heq]; exact List.mem_append_right _ (List.mem_cons_self _ _)

theorem argmaxBy_le {α β : Type} [LinearOrder β] (f : α → β) (l : List α) (w : α)
    (hw : argmaxBy f l = some w) : ∀ x ∈ l, f x ≤ f w := by
  obtain ⟨l1, l2, heq, h1, h2⟩ := argmaxBy_split f l w hw
  intro x hx
  rw [heq] at hx
  rcases List.mem_append.mp hx with hx | hx
  · exact le_of_lt (h1 x hx)
  · rcases List.mem_cons.mp hx with rfl | hx
    · exact le_refl _
    · exact h2 x hx

/-- `argminBy f` is `argmaxBy` for the opposite order, expressed directly:
the winner splits the list into a strict prefix (all strictly greater keys)
and a suffix (all keys `≥`). -/
theorem argminBy_split {α β : Type} [LinearOrder β] (f : α → β) (l : List α) (w : α)
    (hw : argminBy f l = some w) :
    ∃ l1 l2, l = l1 ++ w :: l2 ∧ (∀ x ∈ l1, f w < f x) ∧ (∀ x ∈ l2, f w ≤ f x) := by
  have hmax : argmaxBy (β := βᵒᵈ) (fun a => OrderDual.toDual (f a)) l = some w := by
    cases l with
    | nil => simp [argminBy] at hw
    | cons x xs =>
        simp only [argmaxBy, Option.some.injEq]
        have : ∀ (b : α), xs.foldl
            (fun best y => if OrderDual.toDual (f best) < OrderDual.toDual (f y) then y else best) b
            = xs.foldl (fun best y => if f y < f best then y else best) b := by
          intro b
          induction xs generalizing b with
          | nil => rfl
          | cons z zs ih => simp [List.foldl_cons, OrderDual.toDual_lt_toDual, ih]
        rw [this]
        simpa [argminBy] using hw
  obtain ⟨l1, l2, heq, h1, h2⟩ := argmaxBy_split (β := βᵒᵈ) _ l w hmax
  exact ⟨l1, l2, heq, fun x hx => h1 x hx, fun x hx => h2 x hx⟩

theorem argminBy_mem {α β : Type} [LinearOrder β] (f : α → β) (l : List α) (w : α)
    (hw : argminBy f l = some w) : w ∈ l := by
  obtain ⟨l1, l2, heq, -, -⟩ := argminBy_split f l w hw
  rw [heq]; exact List.mem_append_right _ (List.mem_cons_self _ _)

theorem argminBy_ge {α β : Type} [LinearOrder β] (f : α → β) (l : List α) (w : α)
    (hw : argminBy f l = some w) : ∀ x ∈ l, f w ≤ f x := by
  obtain ⟨l1, l2, heq, h1, h2⟩ := argminBy_split f l w hw
  intro x hx
  rw [heq] at hx
  rcases List.mem_append.mp hx with hx | hx
  · exact le_of_lt (h1 x hx)
  · rcases List.mem_cons.mp hx with rfl | hx
    · exact le_refl _
    · exact h2 x hx

/-! ## Canonical enums (`app/models/enums.py`) -/

inductive Venue
  | hyperliquid
  | lighter
  | tradexyz
deriving DecidableEq, Repr

inductive OrderType
  | market
  | limit
  | stopMarket
  | stopLimit
deriving DecidableEq, Repr

inductive OrderSide
  | buy
  | sell
deriving DecidableEq, Repr

inductive OrderStatus
  | pending
  | open_
  | partiallyFilled
  | filled
  | cancelled
  | rejected
  | expired
deriving DecidableEq, Repr

/-- `OrderStatus.active_statuses()`. -/
def OrderStatus.isActive : OrderStatus → Bool
  | .pending | .open_ | .partiallyFilled => true
  | _ => false

inductive PositionSide
  | long
  | short
deriving DecidableEq, Repr

inductive AssetType
  | spot
  | perpetual
  | future
  | option
deriving DecidableEq, Repr

/-! ## `Position` (`app/models/unified.py`)

Omitted informational fields never read by the aggregation logic:
`liquidation_price`, `margin_ratio`, `venue_data` (a free-form dict; the
consolidated position stores venue labels there, which no claim reads). -/

structure Position where
  venue : Venue
  symbol : String
  size : ℚ
  entryPrice : ℚ
  markPrice : ℚ
  unrealizedPnl : ℚ
  realizedPnl : ℚ
  marginUsed : ℚ
  side : Option PositionSide
  leverage : Option ℚ
  assetType : AssetType
  openedAt : Option ℕ
  updatedAt : ℕ
deriving DecidableEq, Repr

/-- `Position(...)` constructor followed by `__post_init__`: when `side` is
`None` it is derived from the sign of `size` (`LONG` iff `size ≥ 0`). -/
def Position.make (venue : Venue) (symbol : String)
    (size entryPrice markPrice unrealizedPnl realizedPnl marginUsed : ℚ)
    (side : Option PositionSide) (leverage : Option ℚ) (assetType : AssetType)
    (openedAt : Option ℕ) (updatedAt : ℕ) : Position :=
  { venue := venue, symbol := symbol, size := size, entryPrice := entryPrice,
    markPrice := markPrice, unrealizedPnl := unrealizedPnl,
    realizedPnl := realizedPnl, marginUsed := marginUsed,
    side := some (side.getD (if 0 ≤ size then .long else .short)),
    leverage := leverage, assetType := assetType,
    openedAt := openedAt, updatedAt := updatedAt }

/-- `Position.abs_size`. -/
def Position.absSize (p : Position) : ℚ := |p.size|

/-! ## `PositionAggregator` (`app/orchestrator/portfolio_aggregator.py`) -/

/-- Python `min(...)` over a list of comparables (`None` = `ValueError` on
an empty sequence). -/
def listMin? : List ℕ → Option ℕ
  | [] => none
  | x :: xs => some (xs.foldl Nat.min x)

/-- `PositionAggregator._consolidate_position`, as a function of the
per-venue table of one symbol.  The consolidated `Position` is built with
`datetime.utcnow()` passed as `now`.  Returns `none` on the raising path:
`opened_at = min(p.opened_at for p in ... if p.opened_at)` raises
`ValueError` when no venue position carries an `opened_at`.  (The early
`return`s for a missing symbol / empty table are kept in the callers,
which guard exactly as the Python does; `total_notional` is computed by
the source but never used, and is omitted.) -/
def consolidatePosition (symbol : String)
    (venuePositions : List (Venue × Position)) (now : ℕ) : Option Position :=
  match argmaxBy (fun vp => vp.2.updatedAt) venuePositions with
  | none => none
  | some latest =>
      let totalSize := venuePositions.foldl (fun acc vp => acc + vp.2.size) 0
      let totalUnrealized := venuePositions.foldl (fun acc vp => acc + vp.2.unrealizedPnl) 0
      let totalRealized := venuePositions.foldl (fun acc vp => acc + vp.2.realizedPnl) 0
      let totalMargin := venuePositions.foldl (fun acc vp => acc + vp.2.marginUsed) 0
      let weightedSum := venuePositions.foldl
        (fun acc vp => if 0 < vp.2.absSize then acc + vp.2.entryPrice * vp.2.absSize else acc) 0
      let totalAbsSize := venuePositions.foldl
        (fun acc vp => if 0 < vp.2.absSize then acc + vp.2.absSize else acc) 0
      let weightedEntryPrice :=
        if 0 < totalAbsSize then weightedSum / totalAbsSize else latest.2.entryPrice
      match listMin? (venuePositions.filterMap (fun vp => vp.2.openedAt)) with
      | none => none
      | some earliest =>
          some (Position.make Venue.hyperliquid symbol totalSize weightedEntryPrice
            latest.2.markPrice totalUnrealized totalRealized totalMargin
            latest.2.side latest.2.leverage latest.2.assetType (some earliest) now)

/-- The mutable state of a `PositionAggregator`.  The `last_update`
bookkeeping dict is written but never read by any aggregation logic and is
omitted. -/
structure PositionAggregatorState where
  positions : List (String × List (Venue × Position))
  consolidated : List (String × Position)
deriving DecidableEq, Repr

def PositionAggregatorState.empty : PositionAggregatorState :=
  { positions := [], consolidated := [] }

/-- `PositionAggregator.add_position`.  The returned `Bool` is `true` when
`_consolidate_position` raised (`ValueError`), in which case the per-venue
store has already been updated but the consolidated entry has not. -/
def addPosition (s : PositionAggregatorState) (p : Position) (now : ℕ) :
    PositionAggregatorState × Bool :=
  let table := dictSet s.positions p.symbol
    (dictSet (dictGetD s.positions p.symbol []) p.venue p)
  match consolidatePosition p.symbol (dictGetD table p.symbol []) now with
  | some c =>
      ({ positions := table, consolidated := dictSet s.consolidated p.symbol c }, false)
  | none =>
      ({ positions := table, consolidated := s.consolidated }, true)

/-- `PositionAggregator.remove_position`.  The returned `Bool` is `true`
when the re-consolidation of the remaining venues raised. -/
def removePosition (s : PositionAggregatorState) (symbol : String) (venue : Venue)
    (now : ℕ) : PositionAggregatorState × Bool :=
  match dictGet? s.positions symbol with
  | none => (s, false)
  | some vps =>
      if dictHas vps venue then
        let vps' := dictDel vps venue
        if vps' = [] then
          ({ positions := dictDel s.positions symbol,
             consolidated := dictDel s.consolidated symbol }, false)
        else
          let table := dictSet s.positions symbol vps'
          match consolidatePosition symbol vps' now with
          | some c =>
              ({ positions := table, consolidated := dictSet s.consolidated symbol c }, false)
          | none => ({ positions := table, consolidated := s.consolidated }, true)
      else (s, false)

/-- `PositionAggregator.get_all_positions`. -/
def getAllPositions (s : PositionAggregatorState) : List Position :=
  s.consolidated.map Prod.snd

/-! ## Position events (`app/core/events.py`, `PortfolioAggregator`) -/

structure PositionEvent where
  venue : Venue
  symbol : String
  size : ℚ
  entryPrice : ℚ
  markPrice : ℚ
  unrealizedPnl : ℚ
  realizedPnl : ℚ
  marginUsed : ℚ
  timestamp : ℕ
deriving DecidableEq, Repr

/-- The `Position` object built by
`PortfolioAggregator._handle_position_event` from a `PositionEvent`: note
that `opened_at` is never set. -/
def eventPosition (ev : PositionEvent) : Position :=
  Position.make ev.venue ev.symbol ev.size ev.entryPrice ev.markPrice
    ev.unrealizedPnl ev.realizedPnl ev.marginUsed none none AssetType.perpetual
    none ev.timestamp

/-- `PortfolioAggregator._handle_position_event` (the position-aggregator
part; the handler's enclosing `try/except` swallows the raising path, whose
occurrence is reported in the `Bool`). -/
def handlePositionEvent (s : PositionAggregatorState) (ev : PositionEvent) (now : ℕ) :
    PositionAggregatorState × Bool :=
  let p := eventPosition ev
  if p.size = 0 then removePosition s p.symbol p.venue now
  else addPosition s p now

/-! ## Arithmetic helper lemmas for the consolidation loops -/

theorem foldl_add_eq {α : Type} (f : α → ℚ) :
    ∀ (l : List α) (a : ℚ), l.foldl (fun acc x => acc + f x) a = a + (l.map f).sum := by
  intro l
  induction l with
  | nil => intro a; simp
  | cons x xs ih =>
      intro a
      simp only [List.foldl_cons, List.map_cons, List.sum_cons, ih]
      ring

/-- The `total_abs_size` accumulation loop of `_consolidate_position`
(which skips zero-size positions) computes the plain sum of `|size_v|`:
the skipped terms are zero. -/
theorem foldl_absSize_eq :
    ∀ (l : List (Venue × Position)) (a : ℚ),
      l.foldl (fun acc vp => if 0 < vp.2.absSize then acc + vp.2.absSize else acc) a
        = a + (l.map (fun vp => |vp.2.size|)).sum := by
  intro l
  induction l with
  | nil => intro a; simp
  | cons x xs ih =>
      intro a
      simp only [Position.absSize] at ih ⊢
      by_cases h : (0 : ℚ) < |x.2.size|
      · simp only [List.foldl_cons, if_pos h, List.map_cons, List.sum_cons, ih]
        ring
      · have h0 : |x.2.size| = 0 := le_antisymm (not_lt.mp h) (abs_nonneg _)
        simp only [List.foldl_cons, if_neg h, List.map_cons, List.sum_cons, ih, h0]
        simp

/-- The `weighted_entry_price` accumulation loop of `_consolidate_position`
computes the plain sum of `entry_price_v × |size_v|`: the skipped terms are
zero. -/
theorem foldl_weighted_eq :
    ∀ (l : List (Venue × Position)) (a : ℚ),
      l.foldl (fun acc vp => if 0 < vp.2.absSize
          then acc + vp.2.entryPrice * vp.2.absSize else acc) a
        = a + (l.map (fun vp => vp.2.entryPrice * |vp.2.size|)).sum := by
  intro l
  induction l with
  | nil => intro a; simp
  | cons x xs ih =>
      intro a
      simp only [Position.absSize] at ih ⊢
      by_cases h : (0 : ℚ) < |x.2.size|
      · simp only [List.foldl_cons, if_pos h, List.map_cons, List.sum_cons, ih]
        ring
      · have h0 : |x.2.size| = 0 := le_antisymm (not_lt.mp h) (abs_nonneg _)
        simp only [List.foldl_cons, if_neg h, List.map_cons, List.sum_cons, ih, h0]
        simp

theorem dictSet_ne_nil {K V : Type} [DecidableEq K]
    (d : List (K × V)) (k : K) (v : V) : dictSet d k v ≠ [] := by
  cases d with
  | nil => simp [dictSet]
  | cons p rest =>
      obtain ⟨a, b⟩ := p
      by_cases h : a = k <;> simp [dictSet, h]

theorem mem_keys_iff_get?_isSome {K V : Type} [DecidableEq K]
    (d : List (K × V)) (k : K) : k ∈ d.map Prod.fst ↔ (dictGet? d k).isSome := by
  induction d with
  | nil => simp [dictGet?]
  | cons p rest ih =>
      obtain ⟨a, b⟩ := p
      by_cases h : a = k
      · subst h; simp [dictGet?]
      · simp [dictGet?, h, ih, Ne.symm h]

theorem dictDel_eq_nil_of_all {K V : Type} [DecidableEq K]
    (d : List (K × V)) (k : K) (h : ∀ q ∈ d, q.1 = k) : dictDel d k = [] := by
  induction d with
  | nil => simp [dictDel]
  | cons p rest ih =>
      have hp : p.1 = k := h p (List.mem_cons_self _ _)
      simp only [dictDel, List.filter_cons, hp]
      simpa [dictDel] using ih (fun q hq => h q (List.mem_cons_of_mem _ hq))

theorem argmaxBy_isSome {α β : Type} [LinearOrder β] (f : α → β) (l : List α)
    (h : l ≠ []) : ∃ w, argmaxBy f l = some w := by
  cases l with
  | nil => exact absurd rfl h
  | cons x xs => exact ⟨_, rfl⟩

/-- The raising path of `_consolidate_position`: when no stored position for
the symbol carries an `opened_at`, `min(...)` raises `ValueError`. -/
theorem consolidatePosition_none_of_no_openedAt (symbol : String)
    (vps : List (Venue × Position)) (now : ℕ) (hne : vps ≠ [])
    (hall : ∀ q ∈ vps, (q : Venue × Position).2.openedAt = none) :
    consolidatePosition symbol vps now = none := by
  obtain ⟨w, hw⟩ := argmaxBy_isSome (fun vp => vp.2.updatedAt) vps hne
  have hfm : vps.filterMap (fun vp => vp.2.openedAt) = [] := by
    simp only [List.filterMap_eq_nil_iff]
    exact hall
  simp [consolidatePosition, hw, hfm, listMin?]

/-! ## Claim C1: position consolidation per symbol -/

/-- Venue A position of the spec's worked example (`ETH-PERP`, size `+2.0`,
entry `3000`). -/
def examplePositionA : Position :=
  Position.make Venue.hyperliquid "ETH-PERP" 2 3000 3000 0 0 0 none none
    AssetType.perpetual (some 100) 1

/-- Venue B position of the spec's worked example (`ETH-PERP`, size `−0.5`,
entry `3100`). -/
def examplePositionB : Position :=
  Position.make Venue.lighter "ETH-PERP" (-(1/2)) 3100 3100 0 0 0 none none
    AssetType.perpetual (some 200) 2

/-- The per-venue table of the worked example. -/
def exampleVps : List (Venue × Position) :=
  [(Venue.hyperliquid, examplePositionA), (Venue.lighter, examplePositionB)]

/-- The consolidated position the code computes for the worked example:
size `3/2`, entry price `3020`. -/
def exampleConsolidatedPos : Position :=
  Position.make Venue.hyperliquid "ETH-PERP" (3/2) 3020 3100 0 0 0
    (some PositionSide.short) none AssetType.perpetual (some 100) 2

/-- C1.  Whenever `_consolidate_position` produces a consolidated position,
its `size` is the signed sum of the per-venue sizes and its `entry_price`
is the size-weighted average of per-venue entry prices
`Σ (entry_price_v × |size_v|) / Σ |size_v|`, falling back to the
entry price of a most-recently-updated venue position when `Σ |size_v| = 0`. -/
theorem consolidated_position_formula (symbol : String)
    (vps : List (Venue × Position)) (now : ℕ) (c : Position)
    (hc : consolidatePosition symbol vps now = some c) :
    c.size = (vps.map (fun vp => vp.2.size)).sum ∧
    ((vps.map (fun vp => |vp.2.size|)).sum ≠ 0 →
      c.entryPrice = (vps.map (fun vp => vp.2.entryPrice * |vp.2.size|)).sum
        / (vps.map (fun vp => |vp.2.size|)).sum) ∧
    ((vps.map (fun vp => |vp.2.size|)).sum = 0 →
      ∃ vp ∈ vps, (∀ vq ∈ vps, vq.2.updatedAt ≤ vp.2.updatedAt) ∧
        c.entryPrice = vp.2.entryPrice) := by
  cases hlat : argmaxBy (fun vp => vp.2.updatedAt) vps with
  | none => simp [consolidatePosition, hlat] at hc
  | some latest =>
      cases hmin : listMin? (vps.filterMap (fun vp => vp.2.openedAt)) with
      | none => simp [consolidatePosition, hlat, hmin] at hc
      | some earliest =>
          simp only [consolidatePosition, hlat, hmin, Option.some.injEq] at hc
          subst hc
          simp only [Position.make]
          have habs : vps.foldl
              (fun acc vp => if 0 < vp.2.absSize then acc + vp.2.absSize else acc) 0
              = (vps.map (fun vp => |vp.2.size|)).sum := by
            rw [foldl_absSize_eq, zero_add]
          have hws : vps.foldl
              (fun acc vp => if 0 < vp.2.absSize
                then acc + vp.2.entryPrice * vp.2.absSize else acc) 0
              = (vps.map (fun vp => vp.2.entryPrice * |vp.2.size|)).sum := by
            rw [foldl_weighted_eq, zero_add]
          refine ⟨?_, ?_, ?_⟩
          · rw [foldl_add_eq]; ring
          · intro hS
            have hpos : (0 : ℚ) < (vps.map (fun vp => |vp.2.size|)).sum := by
              refine lt_of_le_of_ne ?_ (Ne.symm hS)
              apply List.sum_nonneg
              intro x hx
              simp only [List.mem_map] at hx
              obtain ⟨vp, -, rfl⟩ := hx
              exact abs_nonneg _
            rw [habs, hws, if_pos hpos]
          · intro hS
            rw [habs, hS]
            simp only [lt_irrefl, if_false]
            exact ⟨latest, argmaxBy_mem _ _ _ hlat,
              fun vq hvq => argmaxBy_le _ _ _ hlat vq hvq, rfl⟩

/-- Witness for C1: the spec's worked example.  Venue A holds `+2.0@3000`,
venue B `−0.5@3100`; the code consolidates them to `size = 3/2` and
`entry_price = 3020`, and the general formula instantiates there. -/
theorem consolidated_position_formula_witness :
    consolidatePosition "ETH-PERP" exampleVps 2 = some exampleConsolidatedPos ∧
    exampleConsolidatedPos.size = 3/2 ∧ exampleConsolidatedPos.entryPrice = 3020 ∧
    (exampleConsolidatedPos.size = (exampleVps.map (fun vp => vp.2.size)).sum ∧
    ((exampleVps.map (fun vp => |vp.2.size|)).sum ≠ 0 →
      exampleConsolidatedPos.entryPrice
        = (exampleVps.map (fun vp => vp.2.entryPrice * |vp.2.size|)).sum
          / (exampleVps.map (fun vp => |vp.2.size|)).sum) ∧
    ((exampleVps.map (fun vp => |vp.2.size|)).sum = 0 →
      ∃ vp ∈ exampleVps, (∀ vq ∈ exampleVps, vq.2.updatedAt ≤ vp.2.updatedAt) ∧
        exampleConsolidatedPos.entryPrice = vp.2.entryPrice)) := by
  have hc : consolidatePosition "ETH-PERP" exampleVps 2 = some exampleConsolidatedPos := by
    simp only [consolidatePosition, exampleVps, examplePositionA, examplePositionB,
      exampleConsolidatedPos, Position.make, Position.absSize, argmaxBy, listMin?,
      List.foldl_cons, List.foldl_nil, List.filterMap_cons, List.filterMap_nil,
      Option.getD]
    norm_num [abs_of_nonneg]
  refine ⟨hc, ?_, ?_,
    consolidated_position_formula "ETH-PERP" exampleVps 2 exampleConsolidatedPos hc⟩
  · norm_num [exampleConsolidatedPos, Position.make]
  · norm_num [exampleConsolidatedPos, Position.make]

/-! ## Claim C6: zero-size position events remove positions -/

/-- C6.  Handling a position event with `size = 0` removes the
`(symbol, venue)` entry from the per-venue table; and when that venue was
the only one stored for the symbol, the consolidated entry for the symbol
is deleted as well, so the symbol no longer appears in
`get_all_positions`.  `hinv` is the invariant — maintained by every write
the aggregator performs — that consolidated entries are keyed by their own
symbol. -/
theorem position_event_zero_removes (s : PositionAggregatorState)
    (ev : PositionEvent) (now : ℕ) (hz : ev.size = 0)
    (hinv : ∀ q ∈ s.consolidated, (q : String × Position).2.symbol = q.1) :
    dictGet? (dictGetD (handlePositionEvent s ev now).1.positions ev.symbol [])
      ev.venue = none ∧
    ((dictGetD s.positions ev.symbol []).map Prod.fst = [ev.venue] →
      dictGet? (handlePositionEvent s ev now).1.consolidated ev.symbol = none ∧
      ∀ p ∈ getAllPositions (handlePositionEvent s ev now).1, p.symbol ≠ ev.symbol) := by
  have hsym : (eventPosition ev).symbol = ev.symbol := rfl
  have hven : (eventPosition ev).venue = ev.venue := rfl
  have hsz : (eventPosition ev).size = 0 := hz
  have hhandle : handlePositionEvent s ev now = removePosition s ev.symbol ev.venue now := by
    simp only [handlePositionEvent, hsym, hven, hsz, if_pos]
  rw [hhandle]
  cases hvps : dictGet? s.positions ev.symbol with
  | none =>
      simp only [removePosition, hvps]
      constructor
      · simp [dictGetD, hvps, dictGet?]
      · intro h
        simp [dictGetD, hvps] at h
  | some vps =>
      cases hhas : dictHas vps ev.venue with
      | false =>
          simp only [removePosition, hvps, hhas, Bool.false_eq_true, if_false]
          constructor
          · have : ¬ (dictGet? vps ev.venue).isSome := by simp [dictHas] at hhas; simp [hhas]
            simp only [dictGetD, hvps, Option.getD_some]
            cases ho : dictGet? vps ev.venue with
            | none => rfl
            | some q => rw [ho] at this; simp at this
          · intro h
            exfalso
            have hmem : ev.venue ∈ vps.map Prod.fst := by
              simp [dictGetD, hvps] at h
              simp [h]
            rw [mem_keys_iff_get?_isSome] at hmem
            simp [dictHas] at hhas
            rw [hhas] at hmem
            simp at hmem
      | true =>
          by_cases hnil : dictDel vps ev.venue = []
          · simp only [removePosition, hvps, hhas, if_true, hnil, if_pos]
            constructor
            · simp [dictGetD, dictGet?_del_self, dictGet?]
            · intro _
              constructor
              · exact dictGet?_del_self _ _
              · intro p hp
                simp only [getAllPositions, List.mem_map] at hp
                obtain ⟨q, hq, rfl⟩ := hp
                have hq' : q ∈ s.consolidated ∧ q.1 ≠ ev.symbol := by
                  have := List.mem_filter.mp hq
                  refine ⟨this.1, ?_⟩
                  simpa using this.2
                rw [hinv q hq'.1]
                exact hq'.2
          · constructor
            · have hpos1 : (removePosition s ev.symbol ev.venue now).1.positions
                  = dictSet s.positions ev.symbol (dictDel vps ev.venue) := by
                simp only [removePosition, hvps, hhas, if_true, hnil, if_neg, if_false]
                cases hcons : consolidatePosition ev.symbol (dictDel vps ev.venue) now <;>
                  simp [hcons]
              rw [hpos1]
              have : dictGetD (dictSet s.positions ev.symbol (dictDel vps ev.venue))
                  ev.symbol [] = dictDel vps ev.venue := by
                simp [dictGetD, dictGet?_set_self]
              rw [this]
              exact dictGet?_del_self _ _
            · intro h
              exfalso
              apply hnil
              apply dictDel_eq_nil_of_all
              intro q hq
              have hk : q.1 ∈ vps.map Prod.fst := List.mem_map_of_mem _ hq
              have h' : vps.map Prod.fst = [ev.venue] := by
                simpa [dictGetD, hvps] using h
              rw [h'] at hk
              simpa using hk

/-- Witness for C6: one stored position for `BTC-PERP` on `hyperliquid`;
a zero-size event for that `(symbol, venue)` empties the table and the
consolidated view. -/
theorem position_event_zero_removes_witness :
    (0 : ℚ) = 0 ∧
    (dictGet? (dictGetD (handlePositionEvent
        { positions := [("ETH-PERP", [(Venue.hyperliquid, examplePositionA)])],
          consolidated := [("ETH-PERP", examplePositionA)] }
        { venue := Venue.hyperliquid, symbol := "ETH-PERP", size := 0, entryPrice := 0,
          markPrice := 0, unrealizedPnl := 0, realizedPnl := 0, marginUsed := 0,
          timestamp := 7 } 7).1.positions "ETH-PERP" []) Venue.hyperliquid = none ∧
    ((dictGetD ([("ETH-PERP", [(Venue.hyperliquid, examplePositionA)])]
        : List (String × List (Venue × Position))) "ETH-PERP" []).map Prod.fst
        = [Venue.hyperliquid] →
      dictGet? (handlePositionEvent
        { positions := [("ETH-PERP", [(Venue.hyperliquid, examplePositionA)])],
          consolidated := [("ETH-PERP", examplePositionA)] }
        { venue := Venue.hyperliquid, symbol := "ETH-PERP", size := 0, entryPrice := 0,
          markPrice := 0, unrealizedPnl := 0, realizedPnl := 0, marginUsed := 0,
          timestamp := 7 } 7).1.consolidated "ETH-PERP" = none ∧
      ∀ p ∈ getAllPositions (handlePositionEvent
        { positions := [("ETH-PERP", [(Venue.hyperliquid, examplePositionA)])],
          consolidated := [("ETH-PERP", examplePositionA)] }
        { venue := Venue.hyperliquid, symbol := "ETH-PERP", size := 0, entryPrice := 0,
          markPrice := 0, unrealizedPnl := 0, realizedPnl := 0, marginUsed := 0,
          timestamp := 7 } 7).1, p.symbol ≠ "ETH-PERP")) :=
  ⟨rfl, position_event_zero_removes _ _ 7 rfl
    (by intro q hq; simp at hq; simp [hq, examplePositionA, Position.make])⟩

/-! ## Claim C10: `add_position` raises when no stored position has `opened_at` -/

/-- C10.  When a non-zero-size position event arrives and every stored
per-venue position for the symbol has `opened_at = None` — which is exactly
what `_handle_position_event` constructs, since it never sets `opened_at` —
the handler calls `add_position`, whose consolidation step takes `min` over
an empty sequence and raises `ValueError`; the per-venue position is stored
but the consolidated entry for the symbol is never created or updated. -/
theorem add_position_raises_without_openedAt (s : PositionAggregatorState)
    (ev : PositionEvent) (now : ℕ) (hnz : ev.size ≠ 0)
    (hall : ∀ q ∈ dictGetD s.positions ev.symbol [],
      (q : Venue × Position).2.openedAt = none) :
    handlePositionEvent s ev now = addPosition s (eventPosition ev) now ∧
    (addPosition s (eventPosition ev) now).2 = true ∧
    dictGet? (dictGetD (addPosition s (eventPosition ev) now).1.positions ev.symbol [])
      ev.venue = some (eventPosition ev) ∧
    (addPosition s (eventPosition ev) now).1.consolidated = s.consolidated := by
  have hsym : (eventPosition ev).symbol = ev.symbol := rfl
  have hven : (eventPosition ev).venue = ev.venue := rfl
  have hsz : (eventPosition ev).size = ev.size := rfl
  have hD : dictGetD (dictSet s.positions ev.symbol
      (dictSet (dictGetD s.positions ev.symbol []) ev.venue (eventPosition ev)))
      ev.symbol []
      = dictSet (dictGetD s.positions ev.symbol []) ev.venue (eventPosition ev) := by
    simp [dictGetD, dictGet?_set_self]
  have hcons : consolidatePosition ev.symbol
      (dictGetD (dictSet s.positions ev.symbol
        (dictSet (dictGetD s.positions ev.symbol []) ev.venue (eventPosition ev)))
        ev.symbol []) now = none := by
    rw [hD]
    apply consolidatePosition_none_of_no_openedAt _ _ _ (dictSet_ne_nil _ _ _)
    intro q hq
    rcases dictSet_values_sub _ _ _ q hq with h1 | h1
    · rw [h1]; rfl
    · exact hall q h1
  have hstep : addPosition s (eventPosition ev) now
      = ({ positions := dictSet s.positions ev.symbol
             (dictSet (dictGetD s.positions ev.symbol []) ev.venue (eventPosition ev)),
           consolidated := s.consolidated }, true) := by
    simp only [addPosition, hsym, hven, hcons]
  refine ⟨?_, ?_, ?_, ?_⟩
  · simp [handlePositionEvent, hsz, hnz]
  · rw [hstep]
  · rw [hstep]
    simp only [hD]
    exact dictGet?_set_self _ _ _
  · rw [hstep]

/-- The position event used by the C10 witness. -/
def exampleEventC10 : PositionEvent :=
  { venue := Venue.hyperliquid, symbol := "ETH-PERP", size := 1, entryPrice := 3000,
    markPrice := 3000, unrealizedPnl := 0, realizedPnl := 0, marginUsed := 0,
    timestamp := 5 }

/-- Witness for C10: a fresh aggregator receives a non-zero position event
(`opened_at` is never populated by the handler), so consolidation raises
and no consolidated entry appears. -/
theorem add_position_raises_without_openedAt_witness :
    exampleEventC10.size ≠ 0 ∧
    (handlePositionEvent PositionAggregatorState.empty exampleEventC10 5
      = addPosition PositionAggregatorState.empty (eventPosition exampleEventC10) 5 ∧
    (addPosition PositionAggregatorState.empty (eventPosition exampleEventC10) 5).2 = true ∧
    dictGet? (dictGetD (addPosition PositionAggregatorState.empty
        (eventPosition exampleEventC10) 5).1.positions exampleEventC10.symbol [])
      exampleEventC10.venue = some (eventPosition exampleEventC10) ∧
    (addPosition PositionAggregatorState.empty
        (eventPosition exampleEventC10) 5).1.consolidated
      = PositionAggregatorState.empty.consolidated) :=
  ⟨by norm_num [exampleEventC10],
    add_position_raises_without_openedAt PositionAggregatorState.empty exampleEventC10 5
      (by norm_num [exampleEventC10])
      (by intro q hq; simp [PositionAggregatorState.empty, dictGetD, dictGet?] at hq)⟩

/-! ## `CircuitBreaker` (`app/orchestrator/main_orchestrator.py`) -/

inductive CBState
  | closed
  | opened
  | halfOpen
deriving DecidableEq, Repr

/-- Outcome of one wrapped call. -/
inductive CBResult
  | rejected
  | succeeded
  | failedCall
deriving DecidableEq, Repr

structure CircuitBreaker where
  failureThreshold : ℕ
  timeout : ℕ
  failureCount : ℕ
  lastFailureTime : Option ℤ
  state : CBState
deriving DecidableEq, Repr

/-- `CircuitBreaker.__init__` with the default
`failure_threshold=5, timeout=60` (also the configured defaults
`CIRCUIT_BREAKER_FAILURE_THRESHOLD=5`, `CIRCUIT_BREAKER_TIMEOUT=60`). -/
def CircuitBreaker.init : CircuitBreaker :=
  { failureThreshold := 5, timeout := 60, failureCount := 0,
    lastFailureTime := none, state := .closed }

/-- `_should_attempt_reset`: true when there is no recorded failure or
`(now − last_failure_time).total_seconds() > timeout`. -/
def CircuitBreaker.shouldAttemptReset (cb : CircuitBreaker) (now : ℤ) : Bool :=
  match cb.lastFailureTime with
  | none => true
  | some t => decide ((cb.timeout : ℤ) < now - t)

/-- `_on_success`: reset the failure count and close. -/
def CircuitBreaker.onSuccess (cb : CircuitBreaker) : CircuitBreaker :=
  { cb with failureCount := 0, state := .closed }

/-- `_on_failure`: bump the count, stamp the failure time, and open once the
count reaches the threshold. -/
def CircuitBreaker.onFailure (cb : CircuitBreaker) (now : ℤ) : CircuitBreaker :=
  { cb with
    failureCount := cb.failureCount + 1
    lastFailureTime := some now
    state := if cb.failureThreshold ≤ cb.failureCount + 1 then .opened else cb.state }

/-- `CircuitBreaker.call`: `succeeds` is the outcome of the wrapped
coroutine, `now` the time of the call.  `rejected` models the
`CircuitBreakerError` raised without touching the wrapped function;
`failedCall` models the wrapped call's exception propagating. -/
def CircuitBreaker.call (cb : CircuitBreaker) (now : ℤ) (succeeds : Bool) :
    CBResult × CircuitBreaker :=
  match (if cb.state = .opened then
           (if cb.shouldAttemptReset now then some { cb with state := .halfOpen } else none)
         else some cb) with
  | none => (.rejected, cb)
  | some cb' =>
      if succeeds then (.succeeded, cb'.onSuccess)
      else (.failedCall, cb'.onFailure now)

/-- A sequence of consecutive failing wrapped calls. -/
def CircuitBreaker.failAll (cb : CircuitBreaker) (times : List ℤ) : CircuitBreaker :=
  times.foldl (fun c t => (c.call t false).2) cb

/-- C2.  The per-venue circuit breaker: from a fresh breaker, four
consecutive failures leave it `closed` and the fifth opens it; while
`open`, any call within `timeout = 60` seconds of the last failure is
rejected immediately with the breaker untouched; once
`now − last_failure_time` exceeds the timeout, exactly one trial call is
admitted (through `half_open`): a successful trial closes the breaker and
resets the failure count, a failed trial re-opens it. -/
theorem circuit_breaker_state_machine
    (t1 t2 t3 t4 t5 : ℤ) (cb : CircuitBreaker) (t now now2 : ℤ) (b : Bool)
    (hth : cb.failureThreshold = 5) (hto : cb.timeout = 60)
    (hst : cb.state = CBState.opened) (hlf : cb.lastFailureTime = some t)
    (hcnt : 5 ≤ cb.failureCount) :
    (CircuitBreaker.failAll .init [t1, t2, t3, t4]).state = CBState.closed ∧
    (CircuitBreaker.failAll .init [t1, t2, t3, t4]).failureCount = 4 ∧
    (CircuitBreaker.failAll .init [t1, t2, t3, t4, t5]).state = CBState.opened ∧
    (now - t ≤ 60 → cb.call now b = (CBResult.rejected, cb)) ∧
    (60 < now2 - t →
      (cb.call now2 true).1 = CBResult.succeeded ∧
      (cb.call now2 true).2.state = CBState.closed ∧
      (cb.call now2 true).2.failureCount = 0) ∧
    (60 < now2 - t →
      (cb.call now2 false).1 = CBResult.failedCall ∧
      (cb.call now2 false).2.state = CBState.opened) := by
  refine ⟨?_, ?_, ?_, ?_, ?_, ?_⟩
  · simp [CircuitBreaker.failAll, CircuitBreaker.init, CircuitBreaker.call,
      CircuitBreaker.onFailure]
  · simp [CircuitBreaker.failAll, CircuitBreaker.init, CircuitBreaker.call,
      CircuitBreaker.onFailure]
  · simp [CircuitBreaker.failAll, CircuitBreaker.init, CircuitBreaker.call,
      CircuitBreaker.onFailure]
  · intro h
    have hno : ¬ ((60 : ℤ) < now - t) := not_lt.mpr h
    simp [CircuitBreaker.call, CircuitBreaker.shouldAttemptReset, hst, hlf, hto, hno]
  · intro h
    simp [CircuitBreaker.call, CircuitBreaker.shouldAttemptReset,
      CircuitBreaker.onSuccess, hst, hlf, hto, h]
  · intro h
    have hge : cb.failureThreshold ≤ cb.failureCount + 1 := by
      rw [hth]; exact le_trans hcnt (Nat.le_succ _)
    simp [CircuitBreaker.call, CircuitBreaker.shouldAttemptReset,
      CircuitBreaker.onFailure, hst, hlf, hto, h, hge]

/-- An open breaker with five recorded failures, last failure at time 0. -/
def exampleCB : CircuitBreaker :=
  { failureThreshold := 5, timeout := 60, failureCount := 5,
    lastFailureTime := some 0, state := CBState.opened }

/-- Witness for C2 at concrete times: failures at 1..5 from a fresh
breaker; an open breaker probed at 30 (rejected) and at 100 (trial). -/
theorem circuit_breaker_state_machine_witness :
    (exampleCB.failureThreshold = 5 ∧ exampleCB.timeout = 60 ∧
     exampleCB.state = CBState.opened ∧ exampleCB.lastFailureTime = some 0 ∧
     5 ≤ exampleCB.failureCount) ∧
    ((CircuitBreaker.failAll .init [1, 2, 3, 4]).state = CBState.closed ∧
    (CircuitBreaker.failAll .init [1, 2, 3, 4]).failureCount = 4 ∧
    (CircuitBreaker.failAll .init [1, 2, 3, 4, 5]).state = CBState.opened ∧
    ((30 : ℤ) - 0 ≤ 60 → exampleCB.call 30 true = (CBResult.rejected, exampleCB)) ∧
    ((60 : ℤ) < 100 - 0 →
      (exampleCB.call 100 true).1 = CBResult.succeeded ∧
      (exampleCB.call 100 true).2.state = CBState.closed ∧
      (exampleCB.call 100 true).2.failureCount = 0) ∧
    ((60 : ℤ) < 100 - 0 →
      (exampleCB.call 100 false).1 = CBResult.failedCall ∧
      (exampleCB.call 100 false).2.state = CBState.opened)) :=
  ⟨⟨rfl, rfl, rfl, rfl, by decide⟩,
    circuit_breaker_state_machine 1 2 3 4 5 exampleCB 0 30 100 true
      rfl rfl rfl rfl (by decide)⟩

/-! ## `UnifiedOrder` (`app/models/unified.py`) and order events -/

/-- Omitted informational fields never read by the claims' logic:
`time_in_force`, `fee_asset`, `filled_at`, `venue_data`. -/
structure UnifiedOrder where
  symbol : String
  side : OrderSide
  orderType : OrderType
  quantity : ℚ
  venue : Venue
  price : Option ℚ
  stopPrice : Option ℚ
  clientOrderId : String
  orderId : Option String
  status : OrderStatus
  filledQuantity : ℚ
  remainingQuantity : Option ℚ
  averageFillPrice : Option ℚ
  fee : Option ℚ
  createdAt : ℕ
  updatedAt : Option ℕ
deriving DecidableEq, Repr

/-- `UnifiedOrder(...)` construction followed by `__post_init__`:
`remaining_quantity` defaults to the full `quantity` when not supplied, and
`limit`/`stop_limit` (resp. `stop_market`/`stop_limit`) orders raise
`ValueError` without a `price` (resp. `stop_price`).  (The source compares
the str-enum members against strings coming from events; str-enums compare
equal to their values, so both are embedded as the enums.) -/
def UnifiedOrder.make (symbol : String) (side : OrderSide) (orderType : OrderType)
    (quantity : ℚ) (venue : Venue) (price stopPrice : Option ℚ)
    (clientOrderId : String) (orderId : Option String) (status : OrderStatus)
    (filledQuantity : ℚ) (remainingQuantity averageFillPrice fee : Option ℚ)
    (createdAt : ℕ) (updatedAt : Option ℕ) : Except String UnifiedOrder :=
  let o : UnifiedOrder :=
    { symbol := symbol, side := side, orderType := orderType, quantity := quantity,
      venue := venue, price := price, stopPrice := stopPrice,
      clientOrderId := clientOrderId, orderId := orderId, status := status,
      filledQuantity := filledQuantity,
      remainingQuantity := some (remainingQuantity.getD quantity),
      averageFillPrice := averageFillPrice, fee := fee,
      createdAt := createdAt, updatedAt := updatedAt }
  if (orderType = OrderType.limit ∨ orderType = OrderType.stopLimit) ∧ price = none then
    Except.error "orders require a price"
  else if (orderType = OrderType.stopMarket ∨ orderType = OrderType.stopLimit)
      ∧ stopPrice = none then
    Except.error "orders require a stop price"
  else Except.ok o

/-- `OrderEvent` (`app/core/events.py`). -/
structure OrderEvent where
  eventId : String
  eventType : String
  timestamp : ℕ
  venue : Venue
  orderId : String
  clientOrderId : String
  status : OrderStatus
  symbol : String
  side : OrderSide
  orderType : OrderType
  quantity : ℚ
  price : Option ℚ
  filledQuantity : ℚ
  averageFillPrice : Option ℚ
  fee : Option ℚ
  errorMessage : Option String
deriving DecidableEq, Repr

/-- `PortfolioAggregator._handle_order_event`, acting on the
`active_orders` dict keyed by `client_order_id`.  On an active status the
event's fields are used to build a fresh `UnifiedOrder` —
`remaining_quantity` is *not* passed — and stored; on a terminal status the
entry is dropped.  A `ValueError` from the constructor is swallowed by the
handler's `try/except`. -/
def handleOrderEvent (activeOrders : List (String × UnifiedOrder)) (ev : OrderEvent) :
    List (String × UnifiedOrder) :=
  if ev.status = OrderStatus.pending ∨ ev.status = OrderStatus.open_
      ∨ ev.status = OrderStatus.partiallyFilled then
    match UnifiedOrder.make ev.symbol ev.side ev.orderType ev.quantity ev.venue ev.price
        none ev.clientOrderId (some ev.orderId) ev.status ev.filledQuantity none
        ev.averageFillPrice ev.fee 0 (some ev.timestamp) with
    | Except.ok o => dictSet activeOrders ev.clientOrderId o
    | Except.error _ => activeOrders
  else dictDel activeOrders ev.clientOrderId

/-! ## Claim C7: the `filled + remaining = qty` invariant -/

/-- A partially-filled order event: quantity 1, filled 0.5. -/
def exampleOrderEventC7 : OrderEvent :=
  { eventId := "e1", eventType := "order_update", timestamp := 10,
    venue := Venue.hyperliquid, orderId := "o1", clientOrderId := "c1",
    status := OrderStatus.partiallyFilled, symbol := "BTC-PERP",
    side := OrderSide.buy, orderType := OrderType.market, quantity := 1,
    price := none, filledQuantity := 1/2, averageFillPrice := none, fee := none,
    errorMessage := none }

/-- C7 fails on the code (code bug): after the aggregator applies a
partially-filled order event with `quantity = 1`, `filled_quantity = 0.5`,
the stored order has `remaining_quantity = 1` (the constructor defaults it
to the *full* quantity since `_handle_order_event` never passes it), so
`filled_qty + remaining_qty = 3/2 ≠ 1 = qty`. -/
theorem order_quantity_invariant_violated :
    (dictGet? (handleOrderEvent [] exampleOrderEventC7) "c1").map
        (fun o => (o.quantity, o.filledQuantity, o.remainingQuantity))
      = some (1, 1/2, some 1) ∧
    (1 : ℚ)/2 + 1 ≠ (1 : ℚ) := by
  constructor
  · simp only [handleOrderEvent, exampleOrderEventC7, UnifiedOrder.make]
    norm_num [dictSet, dictGet?]
  · norm_num

/-! ## `MarketData` (`app/models/unified.py`) and claim C8 -/

/-- Omitted informational fields: 24h statistics, funding rate and time,
open interest, `venue_data`. -/
structure MarketData where
  venue : Venue
  symbol : String
  bidPrice : Option ℚ
  askPrice : Option ℚ
  bidSize : Option ℚ
  askSize : Option ℚ
  lastPrice : Option ℚ
  timestamp : ℕ
deriving DecidableEq, Repr

/-- `MarketData.spread`: `if self.bid_price and self.ask_price` — Python
truthiness, so a present-but-zero price also yields `None`. -/
def MarketData.spread (md : MarketData) : Option ℚ :=
  match md.bidPrice, md.askPrice with
  | some b, some a => if b ≠ 0 ∧ a ≠ 0 then some (a - b) else none
  | _, _ => none

/-- `MarketData.mid_price`. -/
def MarketData.midPrice (md : MarketData) : Option ℚ :=
  match md.bidPrice, md.askPrice with
  | some b, some a => if b ≠ 0 ∧ a ≠ 0 then some ((b + a) / 2) else none
  | _, _ => none

/-- A crossed snapshot: bid 51000 above ask 50000; nothing in the model
forbids it. -/
def exampleCrossedMd : MarketData :=
  { venue := Venue.hyperliquid, symbol := "BTC-PERP", bidPrice := some 51000,
    askPrice := some 50000, bidSize := none, askSize := none, lastPrice := none,
    timestamp := 0 }

/-- Counterexample to C8 as stated: a snapshot with both prices present has
`spread = ask − bid = −1000 < 0`; the derived spread is *not* guaranteed
non-negative. -/
theorem spread_nonneg_counterexample :
    exampleCrossedMd.bidPrice = some 51000 ∧ exampleCrossedMd.askPrice = some 50000 ∧
    exampleCrossedMd.spread = some (-1000) ∧ ¬ ((0 : ℚ) ≤ -1000) := by
  refine ⟨rfl, rfl, ?_, by norm_num⟩
  simp only [MarketData.spread, exampleCrossedMd]
  norm_num

/-- C8 (amended).  For every snapshot whose bid and ask are present and
non-zero, `spread = ask − bid` and `mid = (bid + ask)/2` exactly; the
spread is non-negative exactly when `ask ≥ bid` (the code never enforces
that ordering). -/
theorem spread_mid_formula (md : MarketData) (b a : ℚ)
    (hb : md.bidPrice = some b) (ha : md.askPrice = some a)
    (hb0 : b ≠ 0) (ha0 : a ≠ 0) :
    md.spread = some (a - b) ∧ md.midPrice = some ((b + a) / 2) ∧
    (b ≤ a → ∀ sp, md.spread = some sp → 0 ≤ sp) := by
  refine ⟨?_, ?_, ?_⟩
  · simp [MarketData.spread, hb, ha, hb0, ha0]
  · simp [MarketData.midPrice, hb, ha, hb0, ha0]
  · intro hba sp hsp
    simp [MarketData.spread, hb, ha, hb0, ha0] at hsp
    rw [← hsp]
    exact sub_nonneg.mpr hba

/-- The ordinary snapshot used as C8's witness: bid 50950, ask 51010. -/
def exampleMdC8 : MarketData :=
  { venue := Venue.hyperliquid, symbol := "BTC-PERP", bidPrice := some 50950,
    askPrice := some 51010, bidSize := none, askSize := none, lastPrice := none,
    timestamp := 0 }

/-- Witness for the amended C8 at a concrete snapshot. -/
theorem spread_mid_formula_witness :
    (exampleMdC8.bidPrice = some 50950 ∧ exampleMdC8.askPrice = some 51010 ∧
     (50950 : ℚ) ≠ 0 ∧ (51010 : ℚ) ≠ 0) ∧
    (exampleMdC8.spread = some (51010 - 50950) ∧
     exampleMdC8.midPrice = some ((50950 + 51010) / 2) ∧
     ((50950 : ℚ) ≤ 51010 → ∀ sp, exampleMdC8.spread = some sp → 0 ≤ sp)) :=
  ⟨⟨rfl, rfl, by norm_num, by norm_num⟩,
    spread_mid_formula exampleMdC8 50950 51010 rfl rfl (by norm_num) (by norm_num)⟩

/-! ## Market-data aggregation (`app/websocket/manager.py`,
`app/models/market_data.py`) -/

inductive DEXType
  | hyperliquid
  | lighter
deriving DecidableEq, Repr

/-- Position of a venue in the `DEXType` enum declaration order. -/
def DEXType.ordinal : DEXType → ℕ
  | .hyperliquid => 0
  | .lighter => 1

structure PriceData where
  pair : String
  dex : DEXType
  bid : ℚ
  ask : ℚ
  lastPrice : ℚ
  volume24h : ℚ
  fundingRate : Option ℚ
  timestamp : ℕ
deriving DecidableEq, Repr

structure AggregatedPrice where
  pair : String
  bestBid : ℚ
  bestAsk : ℚ
  bestBidDex : DEXType
  bestAskDex : DEXType
  sources : List PriceData
deriving DecidableEq, Repr

/-- `WebSocketManager._calculate_aggregated_price` as a function of the
per-pair cache values in insertion order (`sources`); `None` on an empty
cache.  `best_bid = max(sources, key=bid)`, `best_ask = min(sources,
key=ask)`: CPython's `max`/`min` return the *first* element attaining the
extremum. -/
def calculateAggregatedPrice (pair : String) (sources : List PriceData) :
    Option AggregatedPrice :=
  match argmaxBy (fun s => s.bid) sources, argminBy (fun s => s.ask) sources with
  | some bb, some ba =>
      some { pair := pair, bestBid := bb.bid, bestAsk := ba.ask,
             bestBidDex := bb.dex, bestAskDex := ba.dex, sources := sources }
  | _, _ => none

/-! ## Claim C3: best bid/ask selection and its tie-break -/

/-- Tied source stored first in the cache, venue B (`lighter`). -/
def exampleTiedPdB : PriceData :=
  { pair := "BTC-PERP", dex := DEXType.lighter, bid := 50000, ask := 50010,
    lastPrice := 50005, volume24h := 0, fundingRate := none, timestamp := 2 }

/-- Tied source stored second in the cache, venue A (`hyperliquid`). -/
def exampleTiedPdA : PriceData :=
  { pair := "BTC-PERP", dex := DEXType.hyperliquid, bid := 50000, ask := 50010,
    lastPrice := 50005, volume24h := 0, fundingRate := none, timestamp := 1 }

/-- A latency assignment under which venue A (`hyperliquid`) is strictly
faster.  (The code has no latency input at all: `PriceData` carries none.) -/
def exampleLatency : DEXType → ℕ
  | DEXType.hyperliquid => 5
  | DEXType.lighter => 50

/-- Counterexample to C3's tie-break clause: both venues quote bid 50000,
venue A has strictly lower latency *and* the lower venue ordinal, yet the
recompute selects venue B — the first one in cache insertion order.  No
latency/ordinal tie-break exists in the code. -/
theorem best_bid_tie_break_counterexample :
    (calculateAggregatedPrice "BTC-PERP" [exampleTiedPdB, exampleTiedPdA]).map
        (fun agg => (agg.bestBid, agg.bestBidDex))
      = some (50000, DEXType.lighter) ∧
    exampleTiedPdA.bid = 50000 ∧ exampleTiedPdA.dex = DEXType.hyperliquid ∧
    exampleLatency DEXType.hyperliquid < exampleLatency DEXType.lighter ∧
    DEXType.ordinal DEXType.hyperliquid < DEXType.ordinal DEXType.lighter := by
  refine ⟨?_, rfl, rfl, by decide, by decide⟩
  simp only [calculateAggregatedPrice, argmaxBy, argminBy, exampleTiedPdA, exampleTiedPdB,
    List.foldl_cons, List.foldl_nil]
  norm_num

/-- C3 (amended).  Whenever the recompute produces an aggregated view:
`best_bid` is the maximum bid over the cached sources and `best_ask` the
minimum ask, each labelled with the venue of the *first* source in cache
insertion order attaining it (that is the code's tie-break — not latency,
not venue ordinal). -/
theorem aggregated_price_formula (pair : String) (sources : List PriceData)
    (agg : AggregatedPrice) (h : calculateAggregatedPrice pair sources = some agg) :
    (∃ l1 l2 w, sources = l1 ++ w :: l2 ∧ agg.bestBid = w.bid ∧ agg.bestBidDex = w.dex ∧
      (∀ x ∈ l1, x.bid < w.bid) ∧ (∀ x ∈ l2, x.bid ≤ w.bid)) ∧
    (∃ l1 l2 w, sources = l1 ++ w :: l2 ∧ agg.bestAsk = w.ask ∧ agg.bestAskDex = w.dex ∧
      (∀ x ∈ l1, w.ask < x.ask) ∧ (∀ x ∈ l2, w.ask ≤ x.ask)) ∧
    agg.sources = sources ∧ agg.pair = pair := by
  cases hbb : argmaxBy (fun s => s.bid) sources with
  | none => simp [calculateAggregatedPrice, hbb] at h
  | some bb =>
      cases hba : argminBy (fun s => s.ask) sources with
      | none => simp [calculateAggregatedPrice, hbb, hba] at h
      | some ba =>
          simp only [calculateAggregatedPrice, hbb, hba, Option.some.injEq] at h
          subst h
          refine ⟨?_, ?_, rfl, rfl⟩
          · obtain ⟨l1, l2, heq, h1, h2⟩ := argmaxBy_split (fun s => s.bid) sources bb hbb
            exact ⟨l1, l2, bb, heq, rfl, rfl, h1, h2⟩
          · obtain ⟨l1, l2, heq, h1, h2⟩ := argminBy_split (fun s => s.ask) sources ba hba
            exact ⟨l1, l2, ba, heq, rfl, rfl, h1, h2⟩

/-- The spec's worked example: venue A quotes `bid=50950 / ask=51010`. -/
def examplePdVenueA : PriceData :=
  { pair := "BTC-PERP", dex := DEXType.hyperliquid, bid := 50950, ask := 51010,
    lastPrice := 50980, volume24h := 0, fundingRate := none, timestamp := 1 }

/-- The spec's worked example: venue B quotes `bid=50960 / ask=51005`. -/
def examplePdVenueB : PriceData :=
  { pair := "BTC-PERP", dex := DEXType.lighter, bid := 50960, ask := 51005,
    lastPrice := 50980, volume24h := 0, fundingRate := none, timestamp := 2 }

/-- Witness for the amended C3: on the worked example the recompute picks
`best_bid = 50960` and `best_ask = 51005`, both from venue B, and the
general characterisation instantiates there. -/
theorem aggregated_price_formula_witness :
    (calculateAggregatedPrice "BTC-PERP" [examplePdVenueA, examplePdVenueB]).map
        (fun agg => (agg.bestBid, agg.bestBidDex, agg.bestAsk, agg.bestAskDex))
      = some (50960, DEXType.lighter, 51005, DEXType.lighter) ∧
    ∃ agg, calculateAggregatedPrice "BTC-PERP" [examplePdVenueA, examplePdVenueB]
        = some agg ∧
      ((∃ l1 l2 w, [examplePdVenueA, examplePdVenueB] = l1 ++ w :: l2 ∧
          agg.bestBid = w.bid ∧ agg.bestBidDex = w.dex ∧
          (∀ x ∈ l1, x.bid < w.bid) ∧ (∀ x ∈ l2, x.bid ≤ w.bid)) ∧
       (∃ l1 l2 w, [examplePdVenueA, examplePdVenueB] = l1 ++ w :: l2 ∧
          agg.bestAsk = w.ask ∧ agg.bestAskDex = w.dex ∧
          (∀ x ∈ l1, w.ask < x.ask) ∧ (∀ x ∈ l2, w.ask ≤ x.ask)) ∧
       agg.sources = [examplePdVenueA, examplePdVenueB] ∧ agg.pair = "BTC-PERP") := by
  have hc : calculateAggregatedPrice "BTC-PERP" [examplePdVenueA, examplePdVenueB]
      = some { pair := "BTC-PERP", bestBid := 50960, bestAsk := 51005,
               bestBidDex := DEXType.lighter, bestAskDex := DEXType.lighter,
               sources := [examplePdVenueA, examplePdVenueB] } := by
    simp only [calculateAggregatedPrice, argmaxBy, argminBy, examplePdVenueA,
      examplePdVenueB, List.foldl_cons, List.foldl_nil]
    norm_num
  refine ⟨by rw [hc]; rfl, _, hc, aggregated_price_formula "BTC-PERP" _ _ hc⟩

/-! ## `EventBus` (`app/orchestrator/event_bus.py`) -/

/-- An event as the bus handles it (the payload details are irrelevant to
publishing and subscription bookkeeping). -/
structure BusEvent where
  eventId : String
  eventType : String
deriving DecidableEq, Repr

/-- One entry of the `_failed_events` dead-letter list. -/
structure FailedEvent where
  event : BusEvent
  channel : String
  error : String
  timestamp : ℤ
  retryCount : ℕ
deriving DecidableEq, Repr

/-- The `EventBus` state relevant to publishing and subscriptions, over an
abstract handler type `H` (Python callables, compared by equality in
`list.remove`).  Omitted: `_subscription_tasks` / `_active_channels`
(background-task bookkeeping only), `_event_stats` (metrics), and
`_is_running`. -/
structure EventBusState (H : Type) where
  subscribers : List (String × List H)
  failedEvents : List FailedEvent
  cbFailures : ℕ
  cbLastFailure : Option ℤ
  cbOpen : Bool

/-- `_circuit_breaker_threshold = 5`. -/
def busThreshold : ℕ := 5

/-- `_circuit_breaker_timeout = 60`. -/
def busTimeout : ℕ := 60

/-- The dead-letter record `_handle_publish_failure` builds. -/
def mkFailedEvent (ev : BusEvent) (channel error : String) (now : ℤ) : FailedEvent :=
  { event := ev, channel := channel, error := error, timestamp := now, retryCount := 0 }

/-- `EventBus._handle_publish_failure`: bump the failure counter, stamp the
time, open the breaker at the threshold, and append the failed event to the
dead-letter list — unconditionally: the code has no size cap. -/
def handlePublishFailure {H : Type} (s : EventBusState H) (ev : BusEvent)
    (channel error : String) (now : ℤ) : EventBusState H :=
  { s with
    cbFailures := s.cbFailures + 1
    cbLastFailure := some now
    cbOpen := if busThreshold ≤ s.cbFailures + 1 then true else s.cbOpen
    failedEvents := s.failedEvents ++ [mkFailedEvent ev channel error now] }

/-- `EventBus._check_circuit_breaker` (`healthOk` is the outcome of the
Redis health check at probe time). -/
def checkCircuitBreaker {H : Type} (s : EventBusState H) (now : ℤ) (healthOk : Bool) :
    Bool × EventBusState H :=
  if s.cbOpen = false then (true, s)
  else
    match s.cbLastFailure with
    | some t =>
        if (busTimeout : ℤ) < now - t then
          if healthOk then (true, { s with cbOpen := false, cbFailures := 0 })
          else (false, s)
        else (false, s)
    | none => (false, s)

/-- `EventBus.publish` with the channel already determined; `brokerOk` is
the broker publish outcome (an exception and a `False` return both funnel
into `_handle_publish_failure`). -/
def busPublish {H : Type} (s : EventBusState H) (ev : BusEvent) (channel : String)
    (now : ℤ) (healthOk brokerOk : Bool) : Bool × EventBusState H :=
  if s.cbOpen then
    match checkCircuitBreaker s now healthOk with
    | (false, _) => (false, s)
    | (true, s') =>
        if brokerOk then (true, s')
        else (false, handlePublishFailure s' ev channel "Redis publish failed" now)
  else
    if brokerOk then (true, s)
    else (false, handlePublishFailure s ev channel "Redis publish failed" now)

/-- Python `list.remove(x)`: drop the first element equal to `x`. -/
def removeFirst {H : Type} [DecidableEq H] : List H → H → List H
  | [], _ => []
  | x :: xs, h => if x = h then xs else x :: removeFirst xs h

/-- `EventBus.subscribe` (the `_subscribers` mutation; worker-task creation
touches only omitted bookkeeping fields). -/
def busSubscribe {H : Type} [DecidableEq H] (s : EventBusState H) (channel : String)
    (callback : H) : EventBusState H :=
  { s with subscribers :=
      dictSet s.subscribers channel ((dictGetD s.subscribers channel []) ++ [callback]) }

/-- `EventBus.unsubscribe`: remove one callback (or all, when `none`);
drop the channel key once its handler list is empty. -/
def busUnsubscribe {H : Type} [DecidableEq H] (s : EventBusState H) (channel : String)
    (callback : Option H) : EventBusState H :=
  match dictGet? s.subscribers channel with
  | none => s
  | some l =>
      match callback with
      | none => { s with subscribers := dictDel s.subscribers channel }
      | some h =>
          let l' := if h ∈ l then removeFirst l h else l
          if l' = [] then { s with subscribers := dictDel s.subscribers channel }
          else { s with subscribers := dictSet s.subscribers channel l' }

/-- The registered handlers of a channel, observed as a multiset (an absent
channel and an empty handler list are both "no handlers"). -/
def subsAt {H : Type} [DecidableEq H] (s : EventBusState H) (channel : String) :
    Multiset H :=
  ((dictGetD s.subscribers channel [] : List H) : Multiset H)

theorem removeFirst_append_singleton {H : Type} [DecidableEq H] (l : List H) (h : H) :
    ((removeFirst (l ++ [h]) h : List H) : Multiset H) = (l : Multiset H) := by
  induction l with
  | nil => simp [removeFirst]
  | cons x xs ih =>
      by_cases hx : x = h
      · subst hx
        simp only [List.cons_append, removeFirst, if_pos]
        exact Multiset.coe_eq_coe.mpr (List.perm_append_singleton _ _)
      · simp only [List.cons_append, removeFirst, if_neg hx]
        simp only [← Multiset.cons_coe, List.append_eq, ih]

/-! ## Claim C9: subscribe / unsubscribe round trip -/

/-- C9.  For every bus state, channel and handler, `subscribe(c, h)`
followed by `unsubscribe(c, h)` leaves the subscriber set — the mapping
from channels to their registered handlers — exactly as it was, at every
channel. -/
theorem subscribe_unsubscribe_roundtrip {H : Type} [DecidableEq H]
    (s : EventBusState H) (c : String) (h : H) (c' : String) :
    subsAt (busUnsubscribe (busSubscribe s c h) c (some h)) c' = subsAt s c' := by
  have hget : dictGet? (busSubscribe s c h).subscribers c
      = some (dictGetD s.subscribers c [] ++ [h]) := dictGet?_set_self _ _ _
  have hmem : h ∈ dictGetD s.subscribers c [] ++ [h] := by simp
  have hrm := removeFirst_append_singleton (dictGetD s.subscribers c []) h
  by_cases hnil : removeFirst (dictGetD s.subscribers c [] ++ [h]) h = []
  · have hsubs : (busUnsubscribe (busSubscribe s c h) c (some h)).subscribers
        = dictDel (busSubscribe s c h).subscribers c := by
      simp only [busUnsubscribe, hget, hmem, if_pos, hnil, if_true]
    have hl0 : ((dictGetD s.subscribers c [] : List H) : Multiset H) = 0 := by
      rw [← hrm, hnil]; rfl
    by_cases hc : c' = c
    · subst hc
      rw [subsAt, subsAt, hsubs, dictGetD, dictGet?_del_self]
      simpa using hl0.symm
    · rw [subsAt, subsAt, hsubs, dictGetD, dictGet?_del_other _ _ _ hc, busSubscribe]
      rw [dictGet?_set_other _ _ _ _ hc]
      rfl
  · have hsubs : (busUnsubscribe (busSubscribe s c h) c (some h)).subscribers
        = dictSet (busSubscribe s c h).subscribers c
            (removeFirst (dictGetD s.subscribers c [] ++ [h]) h) := by
      simp only [busUnsubscribe, hget, hmem, if_pos, hnil, if_false]
    by_cases hc : c' = c
    · subst hc
      rw [subsAt, subsAt, hsubs, dictGetD, dictGet?_set_self]
      simpa using hrm
    · rw [subsAt, subsAt, hsubs, dictGetD, dictGet?_set_other _ _ _ _ hc, busSubscribe]
      rw [dictGet?_set_other _ _ _ _ hc]
      rfl

/-! ## Claim C4: event-bus failure policy -/

def exampleBusEvent : BusEvent := { eventId := "e", eventType := "order_update" }

def exampleFailedEvent : FailedEvent :=
  { event := exampleBusEvent, channel := "orders", error := "Redis publish failed",
    timestamp := 0, retryCount := 0 }

/-- A bus whose dead-letter list already holds 1,000 entries, breaker
closed. -/
def exampleFullBus : EventBusState Unit :=
  { subscribers := [], failedEvents := List.replicate 1000 exampleFailedEvent,
    cbFailures := 0, cbLastFailure := none, cbOpen := false }

/-- Counterexample to C4's dead-letter cap: one more failed publish on a
bus holding 1,000 dead-lettered events grows the list to 1,001 —
`_handle_publish_failure` appends unconditionally; there is no 1,000 cap
and no drop counter (1,000 appears in the source only as the
`health_check` threshold). -/
theorem dead_letter_cap_counterexample :
    exampleFullBus.failedEvents.length = 1000 ∧
    ((busPublish exampleFullBus exampleBusEvent "orders" 1 true false).2.failedEvents).length
      = 1001 ∧
    ¬ ((1001 : ℕ) ≤ 1000) := by
  refine ⟨?_, ?_, by decide⟩
  · show (List.replicate 1000 exampleFailedEvent).length = 1000
    rw [List.length_replicate]
  · have hpub : busPublish exampleFullBus exampleBusEvent "orders" 1 true false
        = (false, handlePublishFailure exampleFullBus exampleBusEvent "orders"
            "Redis publish failed" 1) := rfl
    rw [hpub]
    show (List.replicate 1000 exampleFailedEvent
        ++ [mkFailedEvent exampleBusEvent "orders" "Redis publish failed" 1]).length = 1001
    rw [List.length_append, List.length_replicate]
    rfl

/-- C4 (amended).  Every publish failure appends the event to the
(unbounded) dead-letter list and bumps the failure counter; the counter
reaching `failure_threshold = 5` opens the breaker; and while the breaker
is open, within `timeout = 60`s of the last failure every publish is
fast-dropped — it returns failure with the state untouched, regardless of
the broker outcome. -/
theorem event_bus_failure_policy {H : Type} (s s2 : EventBusState H)
    (ev ev2 : BusEvent) (ch ch2 : String) (now now2 t : ℤ) (hOk hOk2 b2 : Bool)
    (hclosed : s.cbOpen = false)
    (hopen : s2.cbOpen = true) (hlast : s2.cbLastFailure = some t)
    (hwait : now2 - t ≤ 60) :
    ((busPublish s ev ch now hOk false).1 = false ∧
     (busPublish s ev ch now hOk false).2.failedEvents
        = s.failedEvents ++ [mkFailedEvent ev ch "Redis publish failed" now] ∧
     (busPublish s ev ch now hOk false).2.cbFailures = s.cbFailures + 1 ∧
     (4 ≤ s.cbFailures → (busPublish s ev ch now hOk false).2.cbOpen = true)) ∧
    busPublish s2 ev2 ch2 now2 hOk2 b2 = (false, s2) := by
  constructor
  · refine ⟨?_, ?_, ?_, ?_⟩
    · simp [busPublish, hclosed]
    · simp [busPublish, hclosed, handlePublishFailure]
    · simp [busPublish, hclosed, handlePublishFailure]
    · intro h4
      have hth : busThreshold ≤ s.cbFailures + 1 := by
        simp only [busThreshold]; omega
      simp [busPublish, hclosed, handlePublishFailure, hth]
  · have hno : ¬ ((busTimeout : ℤ) < now2 - t) := by
      simp only [busTimeout]; push_cast; omega
    simp [busPublish, hopen, checkCircuitBreaker, hlast, hno]

/-- A closed bus one failure short of the threshold. -/
def exampleBusClosed : EventBusState Unit :=
  { subscribers := [], failedEvents := [], cbFailures := 4, cbLastFailure := none,
    cbOpen := false }

/-- An open bus, last failure at time 0. -/
def exampleBusOpen : EventBusState Unit :=
  { subscribers := [], failedEvents := [], cbFailures := 5, cbLastFailure := some 0,
    cbOpen := true }

/-- Witness for the amended C4 at concrete states: the fifth failure opens
the breaker, and an open bus probed at time 30 fast-drops even a publish
whose broker call would succeed. -/
theorem event_bus_failure_policy_witness :
    (exampleBusClosed.cbOpen = false ∧ exampleBusOpen.cbOpen = true ∧
     exampleBusOpen.cbLastFailure = some 0 ∧ (30 : ℤ) - 0 ≤ 60) ∧
    (((busPublish exampleBusClosed exampleBusEvent "orders" 7 true false).1 = false ∧
     (busPublish exampleBusClosed exampleBusEvent "orders" 7 true false).2.failedEvents
        = exampleBusClosed.failedEvents
            ++ [mkFailedEvent exampleBusEvent "orders" "Redis publish failed" 7] ∧
     (busPublish exampleBusClosed exampleBusEvent "orders" 7 true false).2.cbFailures
        = exampleBusClosed.cbFailures + 1 ∧
     (4 ≤ exampleBusClosed.cbFailures →
       (busPublish exampleBusClosed exampleBusEvent "orders" 7 true false).2.cbOpen = true)) ∧
    busPublish exampleBusOpen exampleBusEvent "orders" 30 true true
      = (false, exampleBusOpen)) :=
  ⟨⟨rfl, rfl, rfl, by norm_num⟩,
    event_bus_failure_policy exampleBusClosed exampleBusOpen exampleBusEvent
      exampleBusEvent "orders" "orders" 7 30 0 true true true rfl rfl rfl (by norm_num)⟩

/-! ## `MainOrchestrator.place_order` (`app/orchestrator/main_orchestrator.py`) -/

/-- The exceptions `place_order` raises or re-raises. -/
inductive OrchError
  | orderValidation (field message : String)
  | venueConnection (venue : Venue) (message : String)
  | venueCall (message : String)
deriving DecidableEq, Repr

/-- `str(e)` as passed into the failure event. -/
def OrchError.message : OrchError → String
  | .orderValidation _ m => m
  | .venueConnection _ m => m
  | .venueCall m => m

/-- `_publish_order_event`: the `OrderEvent` built from an order (the
`uuid4` event id is informational and embedded as `""`). -/
def mkOrderEvent (order : UnifiedOrder) (eventType : String) (err : Option String)
    (now : ℕ) : OrderEvent :=
  { eventId := "", eventType := eventType, timestamp := now, venue := order.venue,
    orderId := order.orderId.getD "", clientOrderId := order.clientOrderId,
    status := order.status, symbol := order.symbol, side := order.side,
    orderType := order.orderType, quantity := order.quantity, price := order.price,
    filledQuantity := order.filledQuantity,
    averageFillPrice := order.averageFillPrice, fee := order.fee,
    errorMessage := err }

/-- `MainOrchestrator._validate_order`: empty symbol, non-positive
quantity, or a venue outside the manager set raise `OrderValidationError`. -/
def validateOrder (managers : List Venue) (order : UnifiedOrder) : Option OrchError :=
  if order.symbol = "" then
    some (OrchError.orderValidation "symbol" "Symbol is required")
  else if order.quantity ≤ 0 then
    some (OrchError.orderValidation "quantity" "Quantity must be positive")
  else if ¬ (order.venue ∈ managers) then
    some (OrchError.orderValidation "venue" "Venue not supported")
  else none

/-- `MainOrchestrator._get_venue_manager`: unknown or unhealthy venues
raise `VenueConnectionError`. -/
def getVenueManagerError (managers : List Venue) (healthy : Venue → Bool)
    (venue : Venue) : Option OrchError :=
  if ¬ (venue ∈ managers) then some (OrchError.venueConnection venue "Venue not available")
  else if ¬ healthy venue then some (OrchError.venueConnection venue "Venue is unhealthy")
  else none

/-- The mutation `place_order` applies to the caller's order on the failure
path before publishing: `status := REJECTED`, `updated_at := utcnow()`. -/
def orderRejected (order : UnifiedOrder) (now : ℕ) : UnifiedOrder :=
  { order with status := OrderStatus.rejected, updatedAt := some now }

/-- `MainOrchestrator.place_order`.  `managers`/`healthy` describe the
venue-manager registry, `venueResult` is the outcome of the venue client's
`place_order` behind the circuit breaker (`error` covers both raised
exceptions and breaker rejections).  Returns the result (`error` = the
re-raised exception) together with the list of order events published to
the bus (`_publish_order_event` swallows its own publication errors, so it
always returns). -/
def placeOrder (managers : List Venue) (healthy : Venue → Bool) (order : UnifiedOrder)
    (now : ℕ) (venueResult : Except String UnifiedOrder) :
    Except OrchError UnifiedOrder × List OrderEvent :=
  match validateOrder managers order with
  | some e =>
      (Except.error e,
        [mkOrderEvent (orderRejected order now) "order_rejected" (some e.message) now])
  | none =>
      match getVenueManagerError managers healthy order.venue with
      | some e =>
          (Except.error e,
            [mkOrderEvent (orderRejected order now) "order_rejected" (some e.message) now])
      | none =>
          match venueResult with
          | Except.ok result =>
              (Except.ok result, [mkOrderEvent result "order_placed" none now])
          | Except.error msg =>
              (Except.error (OrchError.venueCall msg),
                [mkOrderEvent (orderRejected order now) "order_rejected" (some msg) now])

/-! ## Claim C5: `place_order` always publishes an order event -/

/-- C5.  Every `place_order` call — returning normally or raising —
publishes exactly one order event before control returns, and that event
reflects the outcome: the venue's returned order and its status on
success, a `rejected` status on every failure path (set on the order
before publishing, with the exception then re-raised). -/
theorem place_order_always_publishes (managers : List Venue) (healthy : Venue → Bool)
    (order : UnifiedOrder) (now : ℕ) (venueResult : Except String UnifiedOrder) :
    (placeOrder managers healthy order now venueResult).2 ≠ [] ∧
    (∃ ev, (placeOrder managers healthy order now venueResult).2 = [ev] ∧
      ((∃ res, (placeOrder managers healthy order now venueResult).1 = Except.ok res ∧
          ev.eventType = "order_placed" ∧ ev.status = res.status ∧
          ev.clientOrderId = res.clientOrderId ∧ ev.symbol = res.symbol) ∨
       ((∃ e, (placeOrder managers healthy order now venueResult).1 = Except.error e) ∧
          ev.eventType = "order_rejected" ∧ ev.status = OrderStatus.rejected ∧
          ev.clientOrderId = order.clientOrderId ∧ ev.symbol = order.symbol))) := by
  cases hv : validateOrder managers order with
  | some e =>
      simp only [placeOrder, hv]
      exact ⟨by simp, ⟨_, rfl, Or.inr ⟨⟨e, rfl⟩, rfl, rfl, rfl, rfl⟩⟩⟩
  | none =>
      cases hm : getVenueManagerError managers healthy order.venue with
      | some e =>
          simp only [placeOrder, hv, hm]
          exact ⟨by simp, ⟨_, rfl, Or.inr ⟨⟨e, rfl⟩, rfl, rfl, rfl, rfl⟩⟩⟩
      | none =>
          cases hr : venueResult with
          | ok result =>
              simp only [placeOrder, hv, hm]
              exact ⟨by simp, ⟨_, rfl, Or.inl ⟨result, rfl, rfl, rfl, rfl, rfl⟩⟩⟩
          | error msg =>
              simp only [placeOrder, hv, hm]
              exact ⟨by simp, ⟨_, rfl,
                Or.inr ⟨⟨OrchError.venueCall msg, rfl⟩, rfl, rfl, rfl, rfl⟩⟩⟩
